import Mathlib

/-!
Verification of the Bybit reverse-proxy server (`server.js`, final revision:
the token-authenticated unified `/bybit/*` route).

The development shallowly embeds the JavaScript source: strings are Lean
`String`s (JS strings restricted to the characters the proxy actually
handles), bytes are `Nat`s below 256, machine words are `Nat` reduced
modulo `2 ^ 32`, and Node's `crypto.createHmac("sha256", ...)` is a full
executable HMAC-SHA-256 over UTF-8 byte lists, validated below against
FIPS-180 and RFC 4231 test vectors.
-/

namespace BybitProxy

/-! ## JavaScript string primitives -/

/-- Characters removed by JavaScript's `String.prototype.trim` (the
ECMAScript WhiteSpace and LineTerminator sets; the common members). -/
def isJsWhitespace (c : Char) : Bool :=
  c = ' ' || c = '\t' || c = '\n' || c = '\r' ||
  c.toNat = 11 || c.toNat = 12 || c.toNat = 160 || c.toNat = 65279 ||
  c.toNat = 8232 || c.toNat = 8233

/-- Model of JS `s.trim()`: strip leading and trailing whitespace. -/
def jsTrim (s : String) : String :=
  String.mk (((s.data.dropWhile isJsWhitespace).reverse.dropWhile isJsWhitespace).reverse)

/-- Model of JS `toLowerCase` on one character (ASCII range; the proxy only
compares against ASCII literals, and no non-ASCII character lower-cases to
a plain ASCII letter of those literals). -/
def jsToLowerChar (c : Char) : Char :=
  if 65 ≤ c.toNat ∧ c.toNat ≤ 90 then Char.ofNat (c.toNat + 32) else c

/-- Model of JS `s.toLowerCase()`. -/
def jsToLower (s : String) : String := String.mk (s.data.map jsToLowerChar)

/-- Model of JS `toUpperCase` on one character (ASCII range). -/
def jsToUpperChar (c : Char) : Char :=
  if 97 ≤ c.toNat ∧ c.toNat ≤ 122 then Char.ofNat (c.toNat - 32) else c

/-- Model of JS `s.toUpperCase()`. -/
def jsToUpper (s : String) : String := String.mk (s.data.map jsToUpperChar)

/-- Split a character list at every occurrence of `sep`, keeping empty
segments — the behaviour of JS `String.prototype.split` with a
single-character separator and no limit. -/
def splitOnChar (sep : Char) : List Char → List (List Char)
  | [] => [[]]
  | c :: rest =>
      let r := splitOnChar sep rest
      if c = sep then [] :: r else (c :: r.headD []) :: r.tail

/-- Model of JS `s.split(sep)` for a one-character separator. -/
def jsSplitChar (s : String) (sep : Char) : List String :=
  (splitOnChar sep s.data).map String.mk

/-- Model of `req.originalUrl.replace(/^\/bybit/, "")`: drop a leading
literal `/bybit` when present, otherwise return the string unchanged. -/
def stripBybit (s : String) : String :=
  if s.data.take 6 = ['/', 'b', 'y', 'b', 'i', 't'] then String.mk (s.data.drop 6) else s

/-! ## SHA-256, HMAC-SHA-256 and lowercase hex (Node `crypto`)

Bytes are `Nat`s below 256; 32-bit words are `Nat`s reduced by `w32`. -/

/-- Reduction of a `Nat` to a 32-bit word. -/
def w32 (n : Nat) : Nat := n % 4294967296

/-- Rotate a 32-bit word right by `n` bits. -/
def rotr32 (x n : Nat) : Nat := w32 ((x >>> n) ||| (x <<< (32 - n)))

/-- SHA-256 Σ0. -/
def bigSigma0 (x : Nat) : Nat := (rotr32 x 2) ^^^ (rotr32 x 13) ^^^ (rotr32 x 22)

/-- SHA-256 Σ1. -/
def bigSigma1 (x : Nat) : Nat := (rotr32 x 6) ^^^ (rotr32 x 11) ^^^ (rotr32 x 25)

/-- SHA-256 σ0. -/
def smallSigma0 (x : Nat) : Nat := (rotr32 x 7) ^^^ (rotr32 x 18) ^^^ (x >>> 3)

/-- SHA-256 σ1. -/
def smallSigma1 (x : Nat) : Nat := (rotr32 x 17) ^^^ (rotr32 x 19) ^^^ (x >>> 10)

/-- SHA-256 choice function (complement taken by xor against the all-ones
32-bit word). -/
def ch (x y z : Nat) : Nat := (x &&& y) ^^^ ((x ^^^ 4294967295) &&& z)

/-- SHA-256 majority function. -/
def maj (x y z : Nat) : Nat := (x &&& y) ^^^ (x &&& z) ^^^ (y &&& z)

/-- SHA-256 round constants (FIPS 180-2 §4.2.2, written in decimal). -/
def sha256K : List Nat :=
  [1116352408, 1899447441, 3049323471, 3921009573, 961987163, 1508970993,
   2453635748, 2870763221, 3624381080, 310598401, 607225278, 1426881987,
   1925078388, 2162078206, 2614888103, 3248222580, 3835390401, 4022224774,
   264347078, 604807628, 770255983, 1249150122, 1555081692, 1996064986,
   2554220882, 2821834349, 2952996808, 3210313671, 3336571891, 3584528711,
   113926993, 338241895, 666307205, 773529912, 1294757372, 1396182291,
   1695183700, 1986661051, 2177026350, 2456956037, 2730485921, 2820302411,
   3259730800, 3345764771, 3516065817, 3600352804, 4094571909, 275423344,
   430227734, 506948616, 659060556, 883997877, 958139571, 1322822218,
   1537002063, 1747873779, 1955562222, 2024104815, 2227730452, 2361852424,
   2428436474, 2756734187, 3204031479, 3329325298]

/-- SHA-256 initial hash value (FIPS 180-2 §5.3.2, written in decimal). -/
def sha256H0 : List Nat :=
  [1779033703, 3144134277, 1013904242, 2773480762,
   1359893119, 2600822924, 528734635, 1541459225]

/-- Append the next word of the SHA-256 message schedule. -/
def scheduleStep (ws : List Nat) : List Nat :=
  ws ++ [w32 (smallSigma1 (ws.getD (ws.length - 2) 0) + ws.getD (ws.length - 7) 0 +
              smallSigma0 (ws.getD (ws.length - 15) 0) + ws.getD (ws.length - 16) 0)]

/-- Iterate `scheduleStep`; 48 steps extend the 16 block words to 64. -/
def extendSchedule : Nat → List Nat → List Nat
  | 0, ws => ws
  | n + 1, ws => extendSchedule n (scheduleStep ws)

/-- One SHA-256 compression round; the state is the eight working
variables `[a, b, c, d, e, f, g, h]`. -/
def roundStep (st : List Nat) (kw : Nat × Nat) : List Nat :=
  let a := st.getD 0 0
  let b := st.getD 1 0
  let c := st.getD 2 0
  let d := st.getD 3 0
  let e := st.getD 4 0
  let f := st.getD 5 0
  let g := st.getD 6 0
  let h := st.getD 7 0
  let t1 := w32 (h + bigSigma1 e + ch e f g + kw.1 + kw.2)
  let t2 := w32 (bigSigma0 a + maj a b c)
  [w32 (t1 + t2), a, b, c, w32 (d + t1), e, f, g]

/-- Compress one 16-word block into the running hash value. -/
def compressBlock (hv : List Nat) (block : List Nat) : List Nat :=
  let ws := extendSchedule 48 block
  let st := (sha256K.zip ws).foldl roundStep hv
  (hv.zip st).map (fun p => w32 (p.1 + p.2))

/-- Big-endian byte decomposition of `v` into `k` bytes. -/
def beBytes : Nat → Nat → List Nat
  | 0, _ => []
  | k + 1, v => beBytes k (v / 256) ++ [v % 256]

/-- Group bytes into big-endian 32-bit words (dropping an incomplete tail;
padded input has none). -/
def bytesToWords : List Nat → List Nat
  | b0 :: b1 :: b2 :: b3 :: rest =>
      (b0 * 16777216 + b1 * 65536 + b2 * 256 + b3) :: bytesToWords rest
  | _ => []

/-- SHA-256 padding: a `0x80` byte, zeros to 56 mod 64, and the bit length
as eight big-endian bytes. -/
def padMessage (msg : List Nat) : List Nat :=
  msg ++ [128] ++ List.replicate ((119 - msg.length % 64) % 64) 0 ++ beBytes 8 (msg.length * 8)

/-- Fold the compression function over `n` 64-byte blocks. -/
def processBlocks : Nat → List Nat → List Nat → List Nat
  | 0, hv, _ => hv
  | n + 1, hv, bytes =>
      processBlocks n (compressBlock hv (bytesToWords (bytes.take 64))) (bytes.drop 64)

/-- SHA-256 of a byte list, as the 32 digest bytes. -/
def sha256 (msg : List Nat) : List Nat :=
  let padded := padMessage msg
  ((processBlocks (padded.length / 64) sha256H0 padded).map (beBytes 4)).flatten

/-- HMAC-SHA-256 (RFC 2104) with a 64-byte block size, as Node's
`crypto.createHmac("sha256", key)` computes it. -/
def hmacSha256 (key msg : List Nat) : List Nat :=
  let k0 := if key.length > 64 then sha256 key else key
  let kPad := k0 ++ List.replicate (64 - k0.length) 0
  sha256 ((kPad.map (fun b => b ^^^ 92)) ++ sha256 ((kPad.map (fun b => b ^^^ 54)) ++ msg))

/-- Lowercase hexadecimal digit for a value below 16. -/
def hexDigitLower (n : Nat) : Char := if n < 10 then Char.ofNat (48 + n) else Char.ofNat (87 + n)

/-- Lowercase hex encoding of a byte list — Node's `digest("hex")`. -/
def toHexLower (bs : List Nat) : String :=
  String.mk ((bs.map (fun b => [hexDigitLower (b / 16), hexDigitLower (b % 16)])).flatten)

/-- UTF-8 encoding of one character. -/
def utf8EncodeChar (c : Char) : List Nat :=
  let n := c.toNat
  if n < 128 then [n]
  else if n < 2048 then [192 + n / 64, 128 + n % 64]
  else if n < 65536 then [224 + n / 4096, 128 + (n / 64) % 64, 128 + n % 64]
  else [240 + n / 262144, 128 + (n / 4096) % 64, 128 + (n / 64) % 64, 128 + n % 64]

/-- UTF-8 bytes of a string — what Node's `update(str)`/`createHmac(_, str)`
hash. -/
def utf8Bytes (s : String) : List Nat := (s.data.map utf8EncodeChar).flatten

/-! Validation of the hash embedding against published test vectors
(FIPS 180-2 examples B.1/B.2, the empty-message digest, and RFC 4231
HMAC-SHA-256 test case 2). -/

set_option maxRecDepth 400000 in
/-- Validation: SHA-256 of `"abc"` matches FIPS 180-2 example B.1. -/
theorem sha256_fips_abc :
    toHexLower (sha256 (utf8Bytes "abc")) =
      "ba7816bf8f01cfea414140de5dae2223b00361a396177a9cb410ff61f20015ad" := by rfl

set_option maxRecDepth 400000 in
/-- Validation: SHA-256 of the empty message. -/
theorem sha256_empty :
    toHexLower (sha256 []) =
      "e3b0c44298fc1c149afbf4c8996fb92427ae41e4649b934ca495991b7852b855" := by rfl

set_option maxRecDepth 400000 in
/-- Validation: HMAC-SHA-256 matches RFC 4231 test case 2. -/
theorem hmacSha256_rfc4231_case2 :
    toHexLower (hmacSha256 (utf8Bytes "Jefe") (utf8Bytes "what do ya want for nothing?")) =
      "5bdcc146bf60754e6a042426089575c75a003f089d2739839dec58b964ec3843" := by rfl

/-! ## The request signer (`signBybit`) -/

/-- Input record of `signBybit`, as destructured at its call site:
`timestamp` is already the decimal string `Date.now().toString()`. -/
structure SigningInput where
  timestamp : String
  apiKey : String
  secret : String
  recvWindow : String
  payload : String
deriving Repr, DecidableEq

/-- Embedding of `signBybit` (`src/unnamed/part_002` lines 52-55, identical
in `src/unnamed/part_000` lines 43-46): build the template-literal string
and return the hex HMAC-SHA-256 digest keyed by the secret. -/
def signBybit (inp : SigningInput) : String :=
  let signStr := inp.timestamp ++ inp.apiKey ++ inp.recvWindow ++ inp.payload
  toHexLower (hmacSha256 (utf8Bytes inp.secret) (utf8Bytes signStr))

/-- Specification-side signature, following the spec's words (§4.4 steps
3-4): the lowercase hex encoding of HMAC-SHA-256, keyed by the secret, of
the separator-free concatenation timestamp ++ apiKey ++ recvWindow ++
payload. -/
def specSignature (timestamp apiKey recvWindow payload secret : String) : String :=
  toHexLower (hmacSha256 (utf8Bytes secret) (utf8Bytes (timestamp ++ apiKey ++ recvWindow ++ payload)))

/-! ## JSON values and `JSON.stringify`

`express.json()` hands the handler a parsed JSON value (`req.body`); the
handler re-serializes it once with `JSON.stringify`. Numbers are modelled
as integers (the proxy never constructs non-integral numbers itself, and no
claim depends on float formatting). -/

/-- Parsed JSON value, the possible shapes of a parsed `req.body`. -/
inductive Json where
  | null : Json
  | bool : Bool → Json
  | num : Int → Json
  | str : String → Json
  | arr : List Json → Json
  | obj : List (String × Json) → Json
deriving Repr

/-- Decimal digits of a natural number, most significant first; `fuel`
bounds the recursion and any `fuel ≥ 1` suffices for `n < 10 ^ fuel`. -/
def natDigits : Nat → Nat → List Char
  | 0, _ => []
  | fuel + 1, n =>
      if n < 10 then [Char.ofNat (48 + n)]
      else natDigits fuel (n / 10) ++ [Char.ofNat (48 + n % 10)]

/-- Decimal string of a natural number. -/
def natToString (n : Nat) : String := String.mk (natDigits (n + 1) n)

/-- Decimal string of an integer — JS number-to-string on integral
values. -/
def intToString : Int → String
  | Int.ofNat m => natToString m
  | Int.negSucc m => "-" ++ natToString (m + 1)

/-- Escape one character as `JSON.stringify` does inside string
literals. -/
def escapeChar (c : Char) : List Char :=
  if c = '"' then ['\\', '"']
  else if c = '\\' then ['\\', '\\']
  else if c = '\n' then ['\\', 'n']
  else if c = '\r' then ['\\', 'r']
  else if c = '\t' then ['\\', 't']
  else if c.toNat = 8 then ['\\', 'b']
  else if c.toNat = 12 then ['\\', 'f']
  else if c.toNat < 32 then
    ['\\', 'u', '0', '0', hexDigitLower (c.toNat / 16), hexDigitLower (c.toNat % 16)]
  else [c]

/-- JSON string literal with quotes and escapes. -/
def jsonQuote (s : String) : String :=
  "\"" ++ String.mk ((s.data.map escapeChar).flatten) ++ "\""

mutual

/-- Embedding of `JSON.stringify` on parsed JSON values. -/
def jsonStringify : Json → String
  | Json.null => "null"
  | Json.bool true => "true"
  | Json.bool false => "false"
  | Json.num n => intToString n
  | Json.str s => jsonQuote s
  | Json.arr xs => "[" ++ stringifyItems xs ++ "]"
  | Json.obj kvs => "\x7b" ++ stringifyMembers kvs ++ "\x7d"

/-- Comma-joined serialization of array elements. -/
def stringifyItems : List Json → String
  | [] => ""
  | [x] => jsonStringify x
  | x :: y :: rest => jsonStringify x ++ "," ++ stringifyItems (y :: rest)

/-- Comma-joined serialization of object members. -/
def stringifyMembers : List (String × Json) → String
  | [] => ""
  | [(k, v)] => jsonQuote k ++ ":" ++ jsonStringify v
  | (k, v) :: m :: rest => jsonQuote k ++ ":" ++ jsonStringify v ++ "," ++ stringifyMembers (m :: rest)

end

/-! ## Process configuration and the request model -/

/-- The process environment variables the server reads at startup; `none`
models an unset variable. -/
structure Config where
  proxyTokenEnv : Option String
  mainKeyEnv : Option String
  mainSecretEnv : Option String
  demoKeyEnv : Option String
  demoSecretEnv : Option String
  recvWindowEnv : Option String
deriving Repr

/-- Constant `PROXY_TOKEN = (process.env.PROXY_TOKEN || "").trim()`. -/
def PROXY_TOKEN (cfg : Config) : String := jsTrim (cfg.proxyTokenEnv.getD "")

/-- Constant `MAIN_KEY`. -/
def MAIN_KEY (cfg : Config) : String := jsTrim (cfg.mainKeyEnv.getD "")

/-- Constant `MAIN_SECRET`. -/
def MAIN_SECRET (cfg : Config) : String := jsTrim (cfg.mainSecretEnv.getD "")

/-- Constant `DEMO_KEY`. -/
def DEMO_KEY (cfg : Config) : String := jsTrim (cfg.demoKeyEnv.getD "")

/-- Constant `DEMO_SECRET`. -/
def DEMO_SECRET (cfg : Config) : String := jsTrim (cfg.demoSecretEnv.getD "")

/-- Constant `RECV_WINDOW = (process.env.BYBIT_RECV_WINDOW || "5000").trim()`
(`||` replaces both an unset and an empty variable). -/
def RECV_WINDOW (cfg : Config) : String :=
  jsTrim (if cfg.recvWindowEnv.getD "" = "" then "5000" else cfg.recvWindowEnv.getD "")

/-- Upstream base URL for the mainnet environment. -/
def BYBIT_MAINNET : String := "https://api.bybit.com"

/-- Upstream base URL for the demo environment. -/
def BYBIT_DEMO : String := "https://api-demo-testnet.bybit.com"

/-- An inbound Express request as the handler consumes it: the method, the
original URL (path including the routing prefix and any query string), the
two recognized headers, the parsed `env` query parameter, and the parsed
JSON body (`none` models a `null` or `undefined` `req.body`). -/
structure Req where
  method : String
  originalUrl : String
  headerProxyToken : Option String
  headerEnv : Option String
  queryEnv : Option String
  body : Option Json
deriving Repr

/-! ## AuthGate, EnvironmentSelector, CredentialStore -/

/-- Embedding of `mustAuth` (lines 24-30): `some (status, message)` is an
early error response, `none` lets the request proceed. -/
def mustAuth (cfg : Config) (req : Req) : Option (Nat × String) :=
  if PROXY_TOKEN cfg = "" then some (500, "PROXY_TOKEN not set")
  else
    let presented := jsTrim (req.headerProxyToken.getD "")
    if presented ≠ PROXY_TOKEN cfg then some (401, "Unauthorized") else none

/-- Embedding of the resolution step `(h || q || "demo")` of `pickEnv`:
first truthy (non-empty) value wins. -/
def resolveEnv (h q : String) : String :=
  if h ≠ "" then h else if q ≠ "" then q else "demo"

/-- Embedding of `pickEnv` (lines 32-41): normalize the header and query
values, resolve, and validate against the literals `"demo"` and
`"main"`. -/
def pickEnv (req : Req) : Except String String :=
  let h := jsToLower (jsTrim (req.headerEnv.getD ""))
  let q := jsToLower (jsTrim (req.queryEnv.getD ""))
  let env := resolveEnv h q
  if env ≠ "demo" ∧ env ≠ "main" then
    Except.error ("Invalid env \"" ++ env ++ "\". Use demo|main.")
  else Except.ok env

/-- A per-environment credential record. -/
structure Creds where
  baseUrl : String
  apiKey : String
  secret : String
deriving Repr

/-- Embedding of `credsFor` (lines 43-50): a thrown `Error` becomes
`Except.error` with the error's message. -/
def credsFor (cfg : Config) (env : String) : Except String Creds :=
  if env = "main" then
    if MAIN_KEY cfg = "" ∨ MAIN_SECRET cfg = "" then Except.error "Mainnet keys missing in env"
    else Except.ok ⟨BYBIT_MAINNET, MAIN_KEY cfg, MAIN_SECRET cfg⟩
  else
    if DEMO_KEY cfg = "" ∨ DEMO_SECRET cfg = "" then Except.error "Demo keys missing in env"
    else Except.ok ⟨BYBIT_DEMO, DEMO_KEY cfg, DEMO_SECRET cfg⟩

/-! ## The `/bybit/*` handler and the forwarder -/

/-- The deterministic arguments the handler passes to `forwardToBybit`:
everything except the `Date.now()` timestamp taken inside the forwarder. -/
structure OutboundCall where
  method : String
  url : String
  apiKey : String
  secret : String
  payload : String
  bodyJson : String
deriving Repr

/-- Embedding of the handler body after auth/env/credential resolution
(lines 105-124): URL assembly by prefix strip and `split("?")`
destructuring, method upper-casing, and the GET/non-GET payload rule. -/
def buildOutbound (creds : Creds) (req : Req) : OutboundCall :=
  let path := stripBybit req.originalUrl
  let parts := jsSplitChar path '?'
  let pathname := parts.headD ""
  let qs := ((parts.get? 1).getD "")
  let url := creds.baseUrl ++ pathname ++ (if qs ≠ "" then "?" ++ qs else "")
  let meth := jsToUpper req.method
  if meth = "GET" then
    { method := meth, url := url, apiKey := creds.apiKey, secret := creds.secret,
      payload := qs, bodyJson := "" }
  else
    let bodyJson := jsonStringify ((req.body).getD (Json.obj []))
    { method := meth, url := url, apiKey := creds.apiKey, secret := creds.secret,
      payload := bodyJson, bodyJson := bodyJson }

/-- Outcome of one request through the `/bybit/*` handler: an early auth
response, a caught exception turned into a 500 response, or an outbound
call to the upstream. -/
inductive HandlerOutcome where
  | earlyAuth : Nat → String → HandlerOutcome
  | caught : String → HandlerOutcome
  | forwarded : OutboundCall → HandlerOutcome
deriving Repr

/-- Embedding of the `/bybit/*` handler (lines 97-132) up to the single
outbound `fetch`: the upstream's response relay is outside this model. -/
def handleBybit (cfg : Config) (req : Req) : HandlerOutcome :=
  match mustAuth cfg req with
  | some st => HandlerOutcome.earlyAuth st.1 st.2
  | none =>
      match pickEnv req with
      | Except.error e => HandlerOutcome.caught e
      | Except.ok env =>
          match credsFor cfg env with
          | Except.error e => HandlerOutcome.caught e
          | Except.ok creds => HandlerOutcome.forwarded (buildOutbound creds req)

/-- The `fetch` options assembled inside `forwardToBybit` (lines 75-76):
`opts.body` is set exactly when the method is not `"GET"`. -/
structure FetchOpts where
  method : String
  body : Option String
deriving Repr

/-- Embedding of `const opts = { method, headers }; if (method !== "GET")
opts.body = bodyJson;`. -/
def outboundOpts (c : OutboundCall) : FetchOpts :=
  { method := c.method, body := if c.method ≠ "GET" then some c.bodyJson else none }

/-- Signature header value computed inside `forwardToBybit` for a given
`Date.now()` timestamp. -/
def outboundSignature (cfg : Config) (c : OutboundCall) (timestamp : String) : String :=
  signBybit ⟨timestamp, c.apiKey, c.secret, RECV_WINDOW cfg, c.payload⟩

namespace ServerJs

/-- The body `express.json()`/`express.text()` leaves on `req.body` in
`src/server.js`: a parsed JSON value (`typeof === "object"`) or raw
text. -/
inductive JsBody where
  | ofJson : Json → JsBody
  | ofText : String → JsBody
deriving Repr

/-- Embedding of the body rule of `proxyToBybit` (`src/server.js` lines
66-73): no body for GET/HEAD; otherwise stringify an object body, pass a
truthy (non-empty) text body through, and send none for an empty text
body. -/
def outboundBody (meth : String) (body : JsBody) : Option String :=
  if meth ≠ "GET" ∧ meth ≠ "HEAD" then
    match body with
    | JsBody.ofJson j => some (jsonStringify j)
    | JsBody.ofText s => if s ≠ "" then some s else none
  else none

end ServerJs

/-- Response status of an outcome that never reaches `fetch`: the status
passed to `res.status` (`mustAuth`'s own status, or the catch branch's
500); `none` when an outbound call is made. -/
def responseStatus : HandlerOutcome → Option Nat
  | HandlerOutcome.earlyAuth st _ => some st
  | HandlerOutcome.caught _ => some 500
  | HandlerOutcome.forwarded _ => none

/-! ## Specification-side derived definitions -/

/-- Segment of a character list before the first occurrence of `sep` (the
whole list when `sep` is absent). -/
def beforeChar (sep : Char) : List Char → List Char
  | [] => []
  | c :: rest => if c = sep then [] else c :: beforeChar sep rest

/-- Segment of a character list after the first occurrence of `sep` (empty
when `sep` is absent). -/
def afterChar (sep : Char) : List Char → List Char
  | [] => []
  | c :: rest => if c = sep then rest else afterChar sep rest

/-- Query string of a URL in the spec's sense: everything after the first
question mark, empty when there is none. -/
def requestQueryString (s : String) : String := String.mk (afterChar '?' s.data)

/-- The serialization pass `JSON.stringify(req.body ?? \x7b\x7d)` the
handler performs once for a non-GET request. -/
def bodyStringOf (req : Req) : String := jsonStringify ((req.body).getD (Json.obj []))

/-- The handler's `pathname`: head of the `split("?")` destructuring. -/
def pathPart (req : Req) : String := (jsSplitChar (stripBybit req.originalUrl) '?').headD ""

/-- The handler's `qs`: second element of the `split("?")` destructuring,
defaulted to the empty string. -/
def qsPart (req : Req) : String := ((jsSplitChar (stripBybit req.originalUrl) '?').get? 1).getD ""

/-- The handler's assembled outbound URL. -/
def urlOf (creds : Creds) (req : Req) : String :=
  creds.baseUrl ++ pathPart req ++ (if qsPart req ≠ "" then "?" ++ qsPart req else "")

/-! ## Helper lemmas -/

theorem string_ne_empty_of_data_ne_nil {s : String} (h : s.data ≠ []) : s ≠ "" := by
  intro he
  subst he
  exact h rfl

theorem natDigits_ne_nil (fuel n : Nat) : natDigits (fuel + 1) n ≠ [] := by
  unfold natDigits
  split <;> simp

theorem jsonStringify_ne_empty (j : Json) : jsonStringify j ≠ "" := by
  cases j with
  | null => decide
  | bool b => cases b <;> decide
  | num n =>
      cases n with
      | ofNat m =>
          apply string_ne_empty_of_data_ne_nil
          simpa [jsonStringify, intToString, natToString] using natDigits_ne_nil m m
      | negSucc m =>
          apply string_ne_empty_of_data_ne_nil
          simp [jsonStringify, intToString, String.data_append]
  | str s =>
      apply string_ne_empty_of_data_ne_nil
      simp [jsonStringify, jsonQuote, String.data_append]
  | arr xs =>
      apply string_ne_empty_of_data_ne_nil
      simp [jsonStringify, String.data_append]
  | obj kvs =>
      apply string_ne_empty_of_data_ne_nil
      simp [jsonStringify, String.data_append]

theorem buildOutbound_eq (creds : Creds) (req : Req) :
    buildOutbound creds req =
      if jsToUpper req.method = "GET" then
        ⟨jsToUpper req.method, urlOf creds req, creds.apiKey, creds.secret, qsPart req, ""⟩
      else
        ⟨jsToUpper req.method, urlOf creds req, creds.apiKey, creds.secret,
         bodyStringOf req, bodyStringOf req⟩ := rfl

theorem forwarded_eq {cfg : Config} {req : Req} {c : OutboundCall}
    (h : handleBybit cfg req = HandlerOutcome.forwarded c) :
    ∃ creds, c = buildOutbound creds req := by
  unfold handleBybit at h
  split at h
  · simp at h
  · split at h
    · simp at h
    · split at h
      · simp at h
      · exact ⟨_, (HandlerOutcome.forwarded.inj h).symm⟩

theorem splitOnChar_ne_nil (sep : Char) (cs : List Char) : splitOnChar sep cs ≠ [] := by
  cases cs with
  | nil => simp [splitOnChar]
  | cons c rest =>
      simp only [splitOnChar]
      split <;> simp

theorem splitOnChar_headD (sep : Char) (cs : List Char) :
    (splitOnChar sep cs).headD [] = beforeChar sep cs := by
  induction cs with
  | nil => rfl
  | cons c rest ih =>
      simp only [splitOnChar, beforeChar]
      by_cases hc : c = sep
      · simp [hc]
      · simp only [if_neg hc, List.headD_cons]
        simpa using ih

theorem splitOnChar_get1 (sep : Char) (cs : List Char) :
    ((splitOnChar sep cs).get? 1).getD [] = beforeChar sep (afterChar sep cs) := by
  induction cs with
  | nil => rfl
  | cons c rest ih =>
      by_cases hc : c = sep
      · obtain ⟨a, t, hr⟩ := List.exists_cons_of_ne_nil (splitOnChar_ne_nil sep rest)
        have hh := splitOnChar_headD sep rest
        rw [hr] at hh
        simp only [List.headD_cons] at hh
        simp [splitOnChar, afterChar, hc, hr, hh]
      · cases hr : splitOnChar sep rest with
        | nil => exact absurd hr (splitOnChar_ne_nil sep rest)
        | cons a t =>
            rw [hr] at ih
            simp only [List.get?_cons_succ, List.get?_cons_zero, Option.getD_some] at ih
            simpa [splitOnChar, afterChar, hc, hr] using ih

theorem beforeChar_of_not_mem (sep : Char) (cs : List Char) (h : sep ∉ cs) :
    beforeChar sep cs = cs := by
  induction cs with
  | nil => rfl
  | cons c rest ih =>
      simp only [List.mem_cons, not_or] at h
      simp only [beforeChar]
      rw [if_neg (fun hh => h.1 hh.symm), ih h.2]

theorem afterChar_of_not_mem (sep : Char) (cs : List Char) (h : sep ∉ cs) :
    afterChar sep cs = [] := by
  induction cs with
  | nil => rfl
  | cons c rest ih =>
      simp only [List.mem_cons, not_or] at h
      simp only [afterChar]
      rw [if_neg (fun hh => h.1 hh.symm), ih h.2]

theorem beforeChar_append_afterChar (sep : Char) (cs : List Char) (h : sep ∈ cs) :
    beforeChar sep cs ++ sep :: afterChar sep cs = cs := by
  induction cs with
  | nil => cases h
  | cons c rest ih =>
      by_cases hc : c = sep
      · subst hc
        simp [beforeChar, afterChar]
      · have hm : sep ∈ rest := by
          rcases List.mem_cons.mp h with h1 | h2
          · exact absurd h1.symm hc
          · exact h2
        simp [beforeChar, afterChar, hc, ih hm]

theorem pathPart_eq (req : Req) :
    pathPart req = String.mk (beforeChar '?' (stripBybit req.originalUrl).data) := by
  unfold pathPart jsSplitChar
  cases hr : splitOnChar '?' (stripBybit req.originalUrl).data with
  | nil => exact absurd hr (splitOnChar_ne_nil _ _)
  | cons a t =>
      have hh := splitOnChar_headD '?' (stripBybit req.originalUrl).data
      rw [hr] at hh
      simp only [List.headD_cons] at hh
      simp [hh]

theorem qsPart_eq (req : Req) :
    qsPart req =
      String.mk (beforeChar '?' (afterChar '?' (stripBybit req.originalUrl).data)) := by
  unfold qsPart jsSplitChar
  have hg := splitOnChar_get1 '?' (stripBybit req.originalUrl).data
  rw [List.get?_map]
  cases hq : (splitOnChar '?' (stripBybit req.originalUrl).data).get? 1 with
  | none =>
      rw [hq] at hg
      simp only [Option.getD_none] at hg
      simp [← hg]
  | some a =>
      rw [hq] at hg
      simp only [Option.getD_some] at hg
      simp [hg]

theorem buildOutbound_url (creds : Creds) (req : Req) :
    (buildOutbound creds req).url = urlOf creds req := by
  rw [buildOutbound_eq]
  split <;> rfl

theorem string_append_empty (s : String) : s ++ "" = s :=
  String.ext (by simp [String.data_append])

theorem mk_append_mk (a b : List Char) : String.mk a ++ String.mk b = String.mk (a ++ b) := rfl

/-! ## Claim theorems -/

/-- C1: for every signing input, the signature produced by `signBybit`
equals the lowercase hex encoding of HMAC-SHA-256, keyed by the secret, of
the concatenation of timestamp, apiKey, recvWindow and payload in that
exact order with no separators. -/
theorem bybit_c1_signature (timestamp apiKey secret recvWindow payload : String) :
    signBybit ⟨timestamp, apiKey, secret, recvWindow, payload⟩ =
      specSignature timestamp apiKey recvWindow payload secret := rfl

/-- C2: for every request the handler forwards with a non-GET method, the
string attached as the outbound `fetch` body is exactly the string used as
the signing payload, so the outbound body bytes equal the signed payload
bytes (one serialization feeds both). -/
theorem bybit_c2_body_eq_payload (cfg : Config) (req : Req) (c : OutboundCall)
    (h : handleBybit cfg req = HandlerOutcome.forwarded c) (hm : c.method ≠ "GET") :
    (outboundOpts c).body = some c.payload ∧
      (outboundOpts c).body.map utf8Bytes = some (utf8Bytes c.payload) := by
  obtain ⟨creds, rfl⟩ := forwarded_eq h
  rw [buildOutbound_eq] at hm ⊢
  by_cases hg : jsToUpper req.method = "GET"
  · rw [if_pos hg] at hm
    exact absurd hg hm
  · rw [if_neg hg]
    simp [outboundOpts, hg]

/-- Witness for C2 at a concrete POST request with an absent body. -/
theorem bybit_c2_body_eq_payload_witness :
    (outboundOpts ⟨"POST", "https://api-demo-testnet.bybit.com/v5/order/create",
        "k", "s", "\x7b\x7d", "\x7b\x7d"⟩).body = some "\x7b\x7d" ∧
      (outboundOpts ⟨"POST", "https://api-demo-testnet.bybit.com/v5/order/create",
        "k", "s", "\x7b\x7d", "\x7b\x7d"⟩).body.map utf8Bytes = some (utf8Bytes "\x7b\x7d") :=
  bybit_c2_body_eq_payload
    ⟨some "t", none, none, some "k", some "s", none⟩
    ⟨"POST", "/bybit/v5/order/create", some "t", none, none, none⟩
    ⟨"POST", "https://api-demo-testnet.bybit.com/v5/order/create",
      "k", "s", "\x7b\x7d", "\x7b\x7d"⟩
    (by rfl) (by decide)

/-- C5: with no proxy token configured the handler answers 500 with a
config error, with a mismatching presented token it answers 401
Unauthorized, and in either early-auth case no outbound call is made. -/
theorem bybit_c5_authgate (cfg : Config) (req : Req) :
    (PROXY_TOKEN cfg = "" →
       handleBybit cfg req = HandlerOutcome.earlyAuth 500 "PROXY_TOKEN not set") ∧
    (PROXY_TOKEN cfg ≠ "" → jsTrim (req.headerProxyToken.getD "") ≠ PROXY_TOKEN cfg →
       handleBybit cfg req = HandlerOutcome.earlyAuth 401 "Unauthorized") ∧
    (∀ st e, handleBybit cfg req = HandlerOutcome.earlyAuth st e →
       ∀ c, handleBybit cfg req ≠ HandlerOutcome.forwarded c) := by
  refine ⟨?_, ?_, ?_⟩
  · intro h0
    have hm : mustAuth cfg req = some (500, "PROXY_TOKEN not set") := by
      unfold mustAuth; rw [if_pos h0]
    unfold handleBybit; rw [hm]
  · intro h1 h2
    have hm : mustAuth cfg req = some (401, "Unauthorized") := by
      unfold mustAuth
      rw [if_neg h1]
      show (if jsTrim (req.headerProxyToken.getD "") ≠ PROXY_TOKEN cfg then
              some (401, "Unauthorized") else none) = some (401, "Unauthorized")
      rw [if_pos h2]
    unfold handleBybit; rw [hm]
  · intro st e he c hf
    rw [he] at hf
    exact HandlerOutcome.noConfusion hf

/-- Witness for C5: a missing token answers 500 and a wrong token answers
401, at concrete requests. -/
theorem bybit_c5_authgate_witness :
    handleBybit ⟨none, none, none, none, none, none⟩
        ⟨"GET", "/bybit/v5/market/time", some "tk", none, none, none⟩ =
      HandlerOutcome.earlyAuth 500 "PROXY_TOKEN not set" ∧
    handleBybit ⟨some "tok", none, none, none, none, none⟩
        ⟨"GET", "/bybit/v5/market/time", some "wrong", none, none, none⟩ =
      HandlerOutcome.earlyAuth 401 "Unauthorized" :=
  ⟨(bybit_c5_authgate ⟨none, none, none, none, none, none⟩
      ⟨"GET", "/bybit/v5/market/time", some "tk", none, none, none⟩).1 (by decide),
   (bybit_c5_authgate ⟨some "tok", none, none, none, none, none⟩
      ⟨"GET", "/bybit/v5/market/time", some "wrong", none, none, none⟩).2.1
     (by decide) (by decide)⟩

/-- C6 counterexample: with configured token `"abc"`, the presented token
`" abc"` differs from it (by a leading space) yet the AuthGate accepts it,
because `mustAuth` trims the presented header before comparing. -/
theorem bybit_c6_counterexample :
    mustAuth ⟨some "abc", none, none, none, none, none⟩
        ⟨"POST", "/bybit/p", some " abc", none, none, none⟩ = none ∧
      (" abc" : String) ≠ "abc" := by
  exact ⟨rfl, by decide⟩

/-- C6 (amended): with a token configured, the AuthGate accepts a presented
header exactly when its trimmed value equals the configured token, and
rejects every other header with 401 Unauthorized — so presented tokens
differing only by leading or trailing whitespace are accepted, and all
others are rejected. -/
theorem bybit_c6_trimmed_equality (cfg : Config) (req : Req) (h : PROXY_TOKEN cfg ≠ "") :
    (mustAuth cfg req = none ↔ jsTrim (req.headerProxyToken.getD "") = PROXY_TOKEN cfg) ∧
    (jsTrim (req.headerProxyToken.getD "") ≠ PROXY_TOKEN cfg →
       mustAuth cfg req = some (401, "Unauthorized")) := by
  by_cases hx : jsTrim (req.headerProxyToken.getD "") = PROXY_TOKEN cfg <;>
    simp [mustAuth, h, hx]

/-- Witness for C6 (amended): token `"tk"` presented as `"  tk  "` is
accepted. -/
theorem bybit_c6_trimmed_equality_witness :
    mustAuth ⟨some "tk", none, none, none, none, none⟩
        ⟨"GET", "/bybit/q", some "  tk  ", none, none, none⟩ = none :=
  (bybit_c6_trimmed_equality ⟨some "tk", none, none, none, none, none⟩
      ⟨"GET", "/bybit/q", some "  tk  ", none, none, none⟩ (by decide)).1.mpr (by decide)

/-- C7: the selector resolves a non-empty (after trim and lower-case)
header value over the query value, the query value when the header is
empty, and the default `"demo"` when both are empty; and `pickEnv` is
exactly validation applied to that resolved value. -/
theorem bybit_c7_precedence (req : Req) :
    (jsToLower (jsTrim (req.headerEnv.getD "")) ≠ "" →
       resolveEnv (jsToLower (jsTrim (req.headerEnv.getD "")))
           (jsToLower (jsTrim (req.queryEnv.getD ""))) =
         jsToLower (jsTrim (req.headerEnv.getD ""))) ∧
    (jsToLower (jsTrim (req.headerEnv.getD "")) = "" →
       jsToLower (jsTrim (req.queryEnv.getD "")) ≠ "" →
       resolveEnv (jsToLower (jsTrim (req.headerEnv.getD "")))
           (jsToLower (jsTrim (req.queryEnv.getD ""))) =
         jsToLower (jsTrim (req.queryEnv.getD ""))) ∧
    (jsToLower (jsTrim (req.headerEnv.getD "")) = "" →
       jsToLower (jsTrim (req.queryEnv.getD "")) = "" →
       resolveEnv (jsToLower (jsTrim (req.headerEnv.getD "")))
           (jsToLower (jsTrim (req.queryEnv.getD ""))) = "demo") ∧
    pickEnv req =
      (if resolveEnv (jsToLower (jsTrim (req.headerEnv.getD "")))
            (jsToLower (jsTrim (req.queryEnv.getD ""))) ≠ "demo" ∧
          resolveEnv (jsToLower (jsTrim (req.headerEnv.getD "")))
            (jsToLower (jsTrim (req.queryEnv.getD ""))) ≠ "main" then
         Except.error ("Invalid env \"" ++
           resolveEnv (jsToLower (jsTrim (req.headerEnv.getD "")))
             (jsToLower (jsTrim (req.queryEnv.getD ""))) ++ "\". Use demo|main.")
       else Except.ok (resolveEnv (jsToLower (jsTrim (req.headerEnv.getD "")))
         (jsToLower (jsTrim (req.queryEnv.getD ""))))) := by
  refine ⟨?_, ?_, ?_, rfl⟩
  · intro h
    simp [resolveEnv, h]
  · intro h hq
    simp [resolveEnv, h, hq]
  · intro h hq
    simp [resolveEnv, h, hq]

/-- C3 counterexample: for the GET request `/bybit/a?x=1?y=2` the request's
query string is `x=1?y=2`, but the payload the handler signs is only `x=1`
— `split("?")` destructuring truncates the query at its own first `?`. -/
theorem bybit_c3_counterexample :
    handleBybit ⟨some "t", none, none, some "k", some "s", none⟩
        ⟨"GET", "/bybit/a?x=1?y=2", some "t", none, none, none⟩ =
      HandlerOutcome.forwarded
        ⟨"GET", "https://api-demo-testnet.bybit.com/a?x=1", "k", "s", "x=1", ""⟩ ∧
    requestQueryString "/bybit/a?x=1?y=2" = "x=1?y=2" ∧
    ("x=1" : String) ≠ "x=1?y=2" :=
  ⟨rfl, rfl, by decide⟩

/-- C3 (amended): for every forwarded GET request the signing payload is
the request's query string truncated at the first further `?`; when the
query string itself contains no `?` the payload is the full query string,
and an absent query yields the empty payload. -/
theorem bybit_c3_get_payload (cfg : Config) (req : Req) (c : OutboundCall)
    (h : handleBybit cfg req = HandlerOutcome.forwarded c)
    (hg : jsToUpper req.method = "GET") :
    c.payload =
      String.mk (beforeChar '?' (requestQueryString (stripBybit req.originalUrl)).data) ∧
    ('?' ∉ (requestQueryString (stripBybit req.originalUrl)).data →
       c.payload = requestQueryString (stripBybit req.originalUrl)) ∧
    ('?' ∉ (stripBybit req.originalUrl).data → c.payload = "") := by
  obtain ⟨creds, rfl⟩ := forwarded_eq h
  rw [buildOutbound_eq, if_pos hg]
  refine ⟨?_, ?_, ?_⟩
  · exact qsPart_eq req
  · intro hq
    have hq' : '?' ∉ afterChar '?' (stripBybit req.originalUrl).data := hq
    show qsPart req = requestQueryString (stripBybit req.originalUrl)
    rw [qsPart_eq req, beforeChar_of_not_mem _ _ hq']
    rfl
  · intro hs
    show qsPart req = ""
    rw [qsPart_eq req, afterChar_of_not_mem _ _ hs]
    rfl

/-- Witness for C3 (amended): a GET request whose query string has no
further `?` signs the full query string. -/
theorem bybit_c3_get_payload_witness :
    ("sym=BTC" : String) = requestQueryString (stripBybit "/bybit/m?sym=BTC") :=
  (bybit_c3_get_payload ⟨some "t", none, none, some "k", some "s", none⟩
      ⟨"GET", "/bybit/m?sym=BTC", some "t", none, none, none⟩
      ⟨"GET", "https://api-demo-testnet.bybit.com/m?sym=BTC", "k", "s", "sym=BTC", ""⟩
      (by rfl) (by rfl)).2.1 (by decide)

/-- C4 counterexample: for the incoming URL `/bybit/b?p=1?q=2` the outbound
URL drops everything from the second `?` on, instead of passing the path
and query through byte-for-byte after prefix removal. -/
theorem bybit_c4_counterexample :
    handleBybit ⟨some "t", none, none, some "k", some "s", none⟩
        ⟨"GET", "/bybit/b?p=1?q=2", some "t", none, none, none⟩ =
      HandlerOutcome.forwarded
        ⟨"GET", "https://api-demo-testnet.bybit.com/b?p=1", "k", "s", "p=1", ""⟩ ∧
    BYBIT_DEMO ++ stripBybit "/bybit/b?p=1?q=2" =
      "https://api-demo-testnet.bybit.com/b?p=1?q=2" ∧
    ("https://api-demo-testnet.bybit.com/b?p=1" : String) ≠
      "https://api-demo-testnet.bybit.com/b?p=1?q=2" :=
  ⟨rfl, rfl, by decide⟩

/-- C4 (amended): the outbound URL is the base URL, the stripped path up to
its first `?`, and — when non-empty — the query truncated at any second
`?`, reattached by a single `?`; the pass-through is exact (base URL ++
stripped path, byte-for-byte) when the stripped path has no `?` at all, or
when its query string is non-empty and itself free of `?`. -/
theorem bybit_c4_url (creds : Creds) (req : Req) :
    (buildOutbound creds req).url =
      creds.baseUrl ++ String.mk (beforeChar '?' (stripBybit req.originalUrl).data) ++
        (if String.mk (beforeChar '?' (requestQueryString (stripBybit req.originalUrl)).data)
              ≠ "" then
           "?" ++ String.mk
             (beforeChar '?' (requestQueryString (stripBybit req.originalUrl)).data)
         else "") ∧
    ('?' ∉ (stripBybit req.originalUrl).data →
       (buildOutbound creds req).url = creds.baseUrl ++ stripBybit req.originalUrl) ∧
    ('?' ∈ (stripBybit req.originalUrl).data →
       '?' ∉ (requestQueryString (stripBybit req.originalUrl)).data →
       requestQueryString (stripBybit req.originalUrl) ≠ "" →
       (buildOutbound creds req).url = creds.baseUrl ++ stripBybit req.originalUrl) := by
  have hurl : (buildOutbound creds req).url =
      creds.baseUrl ++ String.mk (beforeChar '?' (stripBybit req.originalUrl).data) ++
        (if qsPart req ≠ "" then "?" ++ qsPart req else "") := by
    rw [buildOutbound_url, urlOf, pathPart_eq]
  refine ⟨?_, ?_, ?_⟩
  · rw [hurl, qsPart_eq]
    rfl
  · intro hs
    rw [hurl, beforeChar_of_not_mem _ _ hs]
    have hq : qsPart req = "" := by
      rw [qsPart_eq, afterChar_of_not_mem _ _ hs]
      rfl
    rw [hq, if_neg (fun hne => hne rfl), string_append_empty]
  · intro hs hf hne
    have hf' : '?' ∉ afterChar '?' (stripBybit req.originalUrl).data := hf
    have hq : qsPart req = requestQueryString (stripBybit req.originalUrl) := by
      rw [qsPart_eq, beforeChar_of_not_mem _ _ hf']
      rfl
    rw [hurl, hq, if_pos hne]
    apply String.ext
    have hd := beforeChar_append_afterChar '?' (stripBybit req.originalUrl).data hs
    simp only [String.data_append, requestQueryString]
    change creds.baseUrl.data ++ beforeChar '?' (stripBybit req.originalUrl).data ++
        ('?' :: afterChar '?' (stripBybit req.originalUrl).data) =
      creds.baseUrl.data ++ (stripBybit req.originalUrl).data
    rw [List.append_assoc, hd]

/-- Witness for C4 (amended): a URL with a single `?`-free path passes
through exactly. -/
theorem bybit_c4_url_witness :
    (buildOutbound ⟨BYBIT_DEMO, "k", "s"⟩
        ⟨"GET", "/bybit/v5/market/time", some "t", none, none, none⟩).url =
      BYBIT_DEMO ++ stripBybit "/bybit/v5/market/time" :=
  (bybit_c4_url ⟨BYBIT_DEMO, "k", "s"⟩
      ⟨"GET", "/bybit/v5/market/time", some "t", none, none, none⟩).2.1 (by decide)

/-- Witness for C7: header present wins, query wins when header absent,
default when both absent. -/
theorem bybit_c7_precedence_witness :
    resolveEnv "main" "demo" = "main" ∧ resolveEnv "" "demo" = "demo" ∧
      resolveEnv "" "" = "demo" :=
  ⟨(bybit_c7_precedence ⟨"GET", "/bybit/x", none, some " MAIN ", some "demo", none⟩).1
      (by decide),
   (bybit_c7_precedence ⟨"GET", "/bybit/x", none, none, some "demo", none⟩).2.1
      (by decide) (by decide),
   (bybit_c7_precedence ⟨"GET", "/bybit/x", none, none, none, none⟩).2.2.1
      (by decide) (by decide)⟩

/-- C8 counterexample: the value `"mainnet"` — inside the claim's accepted
set — is rejected by `pickEnv` (the code's accepted literals are `"demo"`
and `"main"`), the handler answers 500, and no outbound call is made. -/
theorem bybit_c8_counterexample :
    pickEnv ⟨"GET", "/bybit/c", some "t", some "mainnet", none, none⟩ =
      Except.error "Invalid env \"mainnet\". Use demo|main." ∧
    handleBybit ⟨some "t", none, none, some "k", some "s", none⟩
        ⟨"GET", "/bybit/c", some "t", some "mainnet", none, none⟩ =
      HandlerOutcome.caught "Invalid env \"mainnet\". Use demo|main." ∧
    responseStatus (handleBybit ⟨some "t", none, none, some "k", some "s", none⟩
        ⟨"GET", "/bybit/c", some "t", some "mainnet", none, none⟩) = some 500 :=
  ⟨rfl, rfl, rfl⟩

/-- C8 (amended): a resolved selector value outside `{"demo", "main"}`
(after trim and lower-case) makes `pickEnv` fail with the invalid-env
error, the request is never forwarded, and — once past the auth gate — it
is answered with status 500; values inside `{"demo", "main"}` are
accepted. -/
theorem bybit_c8_validation (cfg : Config) (req : Req) :
    (resolveEnv (jsToLower (jsTrim (req.headerEnv.getD "")))
         (jsToLower (jsTrim (req.queryEnv.getD ""))) ≠ "demo" →
     resolveEnv (jsToLower (jsTrim (req.headerEnv.getD "")))
         (jsToLower (jsTrim (req.queryEnv.getD ""))) ≠ "main" →
       pickEnv req = Except.error ("Invalid env \"" ++
           resolveEnv (jsToLower (jsTrim (req.headerEnv.getD "")))
             (jsToLower (jsTrim (req.queryEnv.getD ""))) ++ "\". Use demo|main.") ∧
       (∀ c, handleBybit cfg req ≠ HandlerOutcome.forwarded c) ∧
       (mustAuth cfg req = none → responseStatus (handleBybit cfg req) = some 500)) ∧
    ((resolveEnv (jsToLower (jsTrim (req.headerEnv.getD "")))
         (jsToLower (jsTrim (req.queryEnv.getD ""))) = "demo" ∨
      resolveEnv (jsToLower (jsTrim (req.headerEnv.getD "")))
         (jsToLower (jsTrim (req.queryEnv.getD ""))) = "main") →
       pickEnv req = Except.ok (resolveEnv (jsToLower (jsTrim (req.headerEnv.getD "")))
         (jsToLower (jsTrim (req.queryEnv.getD ""))))) := by
  constructor
  · intro hd hm
    have hp : pickEnv req = Except.error ("Invalid env \"" ++
        resolveEnv (jsToLower (jsTrim (req.headerEnv.getD "")))
          (jsToLower (jsTrim (req.queryEnv.getD ""))) ++ "\". Use demo|main.") := by
      unfold pickEnv
      exact if_pos ⟨hd, hm⟩
    refine ⟨hp, ?_, ?_⟩
    · intro c hf
      unfold handleBybit at hf
      rw [hp] at hf
      cases hma : mustAuth cfg req <;> rw [hma] at hf <;>
        exact HandlerOutcome.noConfusion hf
    · intro hma
      unfold handleBybit
      rw [hma, hp]
      rfl
  · intro hv
    unfold pickEnv
    rw [if_neg (fun hand => by rcases hv with hv | hv <;> [exact hand.1 hv; exact hand.2 hv])]

/-- Witness for C8 (amended): the value `"staging"` is rejected with the
invalid-env error message. -/
theorem bybit_c8_validation_witness :
    pickEnv ⟨"GET", "/bybit/d", some "t", some "staging", none, none⟩ =
      Except.error "Invalid env \"staging\". Use demo|main." :=
  ((bybit_c8_validation ⟨some "t", none, none, some "k", some "s", none⟩
      ⟨"GET", "/bybit/d", some "t", some "staging", none, none⟩).1
    (by decide) (by decide)).1

/-- C9 counterexample: a HEAD request through the token-authenticated
handler is forwarded with a body attached (`opts.body` is set for every
method other than GET), contradicting the claim that HEAD carries no
body. -/
theorem bybit_c9_counterexample :
    handleBybit ⟨some "t", none, none, some "k", some "s", none⟩
        ⟨"HEAD", "/bybit/h", some "t", none, none, none⟩ =
      HandlerOutcome.forwarded
        ⟨"HEAD", "https://api-demo-testnet.bybit.com/h", "k", "s", "\x7b\x7d", "\x7b\x7d"⟩ ∧
    (outboundOpts ⟨"HEAD", "https://api-demo-testnet.bybit.com/h", "k", "s",
        "\x7b\x7d", "\x7b\x7d"⟩).body = some "\x7b\x7d" :=
  ⟨rfl, rfl⟩

/-- C9 (amended): in the token-authenticated forwarder the outbound call
carries no body exactly when the method is GET — every other method,
including HEAD, gets a body; only `src/server.js`'s `proxyToBybit` sends no
body for both GET and HEAD and a body for other methods with a present
body value. -/
theorem bybit_c9_body_rule (c : OutboundCall) (b : ServerJs.JsBody) (j : Json) :
    ((outboundOpts c).body = none ↔ c.method = "GET") ∧
    ServerJs.outboundBody "GET" b = none ∧
    ServerJs.outboundBody "HEAD" b = none ∧
    ServerJs.outboundBody "POST" (ServerJs.JsBody.ofJson j) = some (jsonStringify j) := by
  refine ⟨?_, rfl, rfl, rfl⟩
  by_cases hm : c.method = "GET" <;> simp [outboundOpts, hm]

/-- C10: a forwarded non-GET request with an absent parsed body sends the
literal string of an empty JSON object as the outbound body and signs that
same string; a non-GET outbound body is never absent and never empty. -/
theorem bybit_c10_default_body (cfg : Config) (req : Req) (c : OutboundCall)
    (h : handleBybit cfg req = HandlerOutcome.forwarded c) (hm : c.method ≠ "GET") :
    (req.body = none →
       (outboundOpts c).body = some "\x7b\x7d" ∧ c.payload = "\x7b\x7d") ∧
    (outboundOpts c).body ≠ none ∧ (outboundOpts c).body ≠ some "" := by
  obtain ⟨creds, rfl⟩ := forwarded_eq h
  rw [buildOutbound_eq] at hm ⊢
  by_cases hg : jsToUpper req.method = "GET"
  · rw [if_pos hg] at hm
    exact absurd hg hm
  · rw [if_neg hg]
    refine ⟨?_, ?_, ?_⟩
    · intro hb
      constructor
      · show (outboundOpts ⟨jsToUpper req.method, urlOf creds req, creds.apiKey,
            creds.secret, bodyStringOf req, bodyStringOf req⟩).body = some "\x7b\x7d"
        simp only [outboundOpts, bodyStringOf, hb, Option.getD_none]
        rw [if_pos hg]
        rfl
      · show bodyStringOf req = "\x7b\x7d"
        rw [bodyStringOf, hb]
        rfl
    · show (outboundOpts ⟨jsToUpper req.method, urlOf creds req, creds.apiKey,
          creds.secret, bodyStringOf req, bodyStringOf req⟩).body ≠ none
      simp [outboundOpts, hg]
    · show (outboundOpts ⟨jsToUpper req.method, urlOf creds req, creds.apiKey,
          creds.secret, bodyStringOf req, bodyStringOf req⟩).body ≠ some ""
      simp only [outboundOpts]
      rw [if_pos hg]
      simp [jsonStringify_ne_empty, bodyStringOf]

/-- Witness for C10: a concrete POST with absent body sends and signs the
two-character empty-object string. -/
theorem bybit_c10_default_body_witness :
    (outboundOpts ⟨"POST", "https://api-demo-testnet.bybit.com/w", "k", "s",
        "\x7b\x7d", "\x7b\x7d"⟩).body = some "\x7b\x7d" ∧
    OutboundCall.payload ⟨"POST", "https://api-demo-testnet.bybit.com/w", "k", "s",
        "\x7b\x7d", "\x7b\x7d"⟩ = "\x7b\x7d" :=
  (bybit_c10_default_body ⟨some "t", none, none, some "k", some "s", none⟩
      ⟨"POST", "/bybit/w", some "t", none, none, none⟩
      ⟨"POST", "https://api-demo-testnet.bybit.com/w", "k", "s", "\x7b\x7d", "\x7b\x7d"⟩
      (by rfl) (by decide)).1 rfl

end BybitProxy
